import Mathlib

/-!
Verification development for a small wearable-metrics collector web app
(`src/main.py`). The app pulls JSON metric data from an upstream REST API,
merges it into a single JSON store file, tracks a last-updated timestamp in a
second file, and serves four HTTP routes.

We shallowly embed the relevant Python functions over an explicit JSON value
type and an explicit two-file file-system state. Python dicts are modelled as
insertion-ordered association lists (matching CPython dict semantics);
exceptions are modelled with `Option`/`Except`.
-/

set_option autoImplicit false

/-- JSON values, as produced by `json.load`. JSON numbers appearing in this
app's payloads are opaque records' contents; integers suffice for the model. -/
inductive JVal where
  | null
  | bool (b : Bool)
  | num (n : Int)
  | str (s : String)
  | arr (elems : List JVal)
  | obj (fields : List (String × JVal))

/-- A Python dict with string keys holding JSON values: an insertion-ordered
association list. Keys coming from `json.load` or from the fetch loop are
unique; lookup returns the first binding. -/
abbrev JDict := List (String × JVal)

/-- Dict lookup, `d[k]` / `d.get(k)`: first binding wins. -/
def dictLookup : JDict → String → Option JVal
  | [], _ => none
  | (k', v) :: rest, k => if k' = k then some v else dictLookup rest k

/-- In-place value replacement at an existing key, `d[k] = v` when `k in d`:
the binding keeps its position. -/
def dictReplace : JDict → String → JVal → JDict
  | [], _, _ => []
  | (k', v') :: rest, k, v =>
    if k' = k then (k', v) :: rest else (k', v') :: dictReplace rest k v

/-- Python truthiness (`if x:`) of a JSON value. -/
def pyTruthy : JVal → Bool
  | .null => false
  | .bool b => b
  | .num n => n != 0
  | .str s => !s.isEmpty
  | .arr xs => !xs.isEmpty
  | .obj d => !d.isEmpty

/-- Subscripting a JSON value with a string key, `v["k"]`. Only dicts support
string subscripts; every other JSON shape raises (TypeError/KeyError),
modelled as `none`. -/
def getItem : JVal → String → Option JVal
  | .obj d, k => dictLookup d k
  | _, _ => none

/-- The element sequence obtained by iterating a JSON value, as consumed by
`list.extend(x)`: a list yields its elements, a string its one-character
substrings, a dict its keys; numbers, booleans and null are not iterable
(TypeError, modelled as `none`). -/
def pyIterElems : JVal → Option (List JVal)
  | .arr xs => some xs
  | .str s => some (s.data.map (fun c => .str (String.mk [c])))
  | .obj d => some (d.map (fun p => .str p.1))
  | _ => none

/-- One iteration of the merge loop body in `update_data` (main.py:158-162):
`if data_type not in existing_data: existing_data[data_type] = data
 else: existing_data[data_type]['data'].extend(data['data'])`.
`none` models an uncaught exception: the current store not being a dict, an
existing shared bucket that is not a dict with a `"data"` key bound to a list
(the only JSON shape with `.extend`), an incoming bucket without a
subscriptable `"data"`, or a non-iterable incoming `"data"` value. -/
def mergeStep : JVal → String × JVal → Option JVal
  | .obj d, (k, v) =>
    match dictLookup d k with
    | none => some (.obj (d ++ [(k, v)]))
    | some (.obj bf) =>
      match dictLookup bf "data" with
      | some (.arr xs) =>
        match getItem v "data" with
        | some dv =>
          match pyIterElems dv with
          | some es =>
            some (.obj (dictReplace d k (.obj (dictReplace bf "data" (.arr (xs ++ es))))))
          | none => none
        | none => none
      | _ => none
    | some _ => none
  | _, _ => none

/-- The merge loop of `update_data` (main.py:158-162), folded over the
incoming mapping's bindings in insertion order. -/
def update_data_merge : JVal → JDict → Option JVal
  | cur, [] => some cur
  | cur, kv :: rest =>
    match mergeStep cur kv with
    | some next => update_data_merge next rest
    | none => none

/-- Contents of the store file: either a file holding the JSON serialization
of a value, or a file whose contents fail to parse as JSON. -/
inductive FileData where
  | json (v : JVal)
  | invalid (raw : String)

/-- The file-system state the program touches: the JSON store file
(`/tmp/oura_data.json`) and the last-updated text file
(`/tmp/last_updated.txt`); `none` means the file is absent. -/
structure FS where
  dataFile : Option FileData
  lastUpdated : Option String

/-- Exceptions that escape the store/merge layer: `json.JSONDecodeError` from
`load_data`, and the KeyError/TypeError/AttributeError family raised by the
merge loop on malformed buckets (collapsed into one constructor). -/
inductive PyError where
  | jsonDecodeError
  | mergeError

/-- `load_data` (main.py:140-152): missing file yields `{}`, unparsable file
re-raises the JSON decode error, otherwise the parsed document is returned. -/
def load_data (fs : FS) : Except PyError JVal :=
  match fs.dataFile with
  | none => .ok (.obj [])
  | some (.json v) => .ok v
  | some (.invalid _) => .error .jsonDecodeError

/-- `store_data` (main.py:129-138): serialize `v` and overwrite the store
file. -/
def store_data (v : JVal) (fs : FS) : FS :=
  { fs with dataFile := some (.json v) }

/-- `update_data` (main.py:154-163): load the store, run the merge loop over
the incoming mapping, and persist the result. An exception anywhere leaves
the store file unwritten, since `store_data` runs last. -/
def update_data (new_data : JDict) (fs : FS) : Except PyError FS :=
  match load_data fs with
  | .error e => .error e
  | .ok existing =>
    match update_data_merge existing new_data with
    | some res => .ok (store_data res fs)
    | none => .error .mergeError

/-- The three fixed metric types fetched by `fetch_and_store_data`
(main.py:171). -/
def data_types : List String := ["daily_activity", "daily_readiness", "daily_sleep"]

/-- The fetch loop of `fetch_and_store_data` (main.py:174-181), parameterized
by an oracle giving each metric type's fetch outcome (`fetch_oura_data`
result, or any raised exception as `.error`). A failure is caught and logged
and the loop continues; a successful truthy payload is added to `new_data`. -/
def fetchLoop (fetch : String → Except Unit JVal) : List String → JDict → JDict
  | [], acc => acc
  | t :: ts, acc =>
    match fetch t with
    | .ok v => fetchLoop fetch ts (if pyTruthy v then acc ++ [(t, v)] else acc)
    | .error _ => fetchLoop fetch ts acc

/-- A wall-clock reading as used by `datetime.now()`; fields in the
`datetime` ranges (year at most 9999, zero-padded two-digit remaining
fields). -/
structure DateTime where
  year : Nat
  month : Nat
  day : Nat
  hour : Nat
  minute : Nat
  sec : Nat

/-- The decimal digit character of `n % 10`. -/
def digitChar (n : Nat) : Char :=
  match n % 10 with
  | 0 => '0'
  | 1 => '1'
  | 2 => '2'
  | 3 => '3'
  | 4 => '4'
  | 5 => '5'
  | 6 => '6'
  | 7 => '7'
  | 8 => '8'
  | _ => '9'

/-- The character sequence produced by
`datetime.now().strftime("%Y-%m-%d %H:%M:%S")` (main.py:189) on a valid
`datetime` value: zero-padded four-digit year and two-digit month, day, hour,
minute and second, with the literal separators of the format string. -/
def formatChars (t : DateTime) : List Char :=
  [digitChar (t.year / 1000), digitChar (t.year / 100), digitChar (t.year / 10),
   digitChar t.year, '-',
   digitChar (t.month / 10), digitChar t.month, '-',
   digitChar (t.day / 10), digitChar t.day, ' ',
   digitChar (t.hour / 10), digitChar t.hour, ':',
   digitChar (t.minute / 10), digitChar t.minute, ':',
   digitChar (t.sec / 10), digitChar t.sec]

/-- `store_last_updated_time` (main.py:187-191): overwrite the timestamp file
with the formatted current time. -/
def store_last_updated_time (now : DateTime) (fs : FS) : FS :=
  { fs with lastUpdated := some (String.mk (formatChars now)) }

/-- The whitespace characters removed by Python's `str.strip()` (ASCII
portion; the timestamp file only ever holds ASCII). -/
def isPySpace (c : Char) : Bool :=
  c == ' ' || c == '\t' || c == '\n' || c == '\r' || c == Char.ofNat 11 || c == Char.ofNat 12

/-- Python `s.strip()`: drop leading and trailing whitespace. -/
def pyStrip (s : String) : String :=
  String.mk (((s.data.dropWhile isPySpace).reverse.dropWhile isPySpace).reverse)

/-- `load_last_updated_time` (main.py:193-199): the stripped file contents,
or the sentinel `"Never"` when the file is absent. -/
def load_last_updated_time (fs : FS) : String :=
  match fs.lastUpdated with
  | none => "Never"
  | some s => pyStrip s

/-- `fetch_and_store_data` (main.py:165-185): run the fetch loop over the
three fixed types, merge-and-persist whatever subset succeeded, then
overwrite the last-updated timestamp. -/
def fetch_and_store_data (fetch : String → Except Unit JVal) (now : DateTime)
    (fs : FS) : Except PyError FS :=
  match update_data (fetchLoop fetch data_types []) fs with
  | .ok fs' => .ok (store_last_updated_time now fs')
  | .error e => .error e

/-- `check_api_key` (main.py:24-31): the module-level `OURA_API_KEY`
(`os.environ.get`, so `none` when the variable is missing) tested for Python
truthiness. -/
def check_api_key (key : Option String) : Bool :=
  match key with
  | some s => !s.isEmpty
  | none => false

/-- The message text of a propagated exception as interpolated by the route
handlers' `str(e)`. -/
def errStr : PyError → String
  | .jsonDecodeError => "Expecting value"
  | .mergeError => "bucket error"

/-- An HTTP response produced by one of the four routes: a rendered dashboard
page, a redirect, an error text with a status code, or the spreadsheet
download (one sheet per metric type, each carrying its record rows). -/
inductive Response where
  | page (store : JVal) (lastUpdatedShown : String)
  | redirectTo (endpoint : String)
  | errText (msg : String) (code : Nat)
  | xlsx (sheets : List (String × List JVal))

/-- Route `/` (`display_data`, main.py:33-50): missing credential fails fast
with a 500; load errors become a 500 with the message; a falsy store
redirects to the initial fetch; otherwise the dashboard is rendered with the
last-updated string. -/
def display_data (key : Option String) (fs : FS) : Response :=
  if !check_api_key key then .errText "Error: OURA_API_KEY is not set" 500
  else
    match load_data fs with
    | .error e => .errText ("An error occurred: " ++ errStr e) 500
    | .ok v =>
      if !pyTruthy v then .redirectTo "fetch_initial_data"
      else .page v (load_last_updated_time fs)

/-- Route `/update` (`manual_update`, main.py:52-64): missing credential
fails fast with a 500 before any store access; otherwise run a refresh and
redirect to `/`; a propagated refresh exception becomes a 500. The returned
state is the file system after the route. -/
def manual_update (key : Option String) (fetch : String → Except Unit JVal)
    (now : DateTime) (fs : FS) : Response × FS :=
  if !check_api_key key then (.errText "Error: OURA_API_KEY is not set" 500, fs)
  else
    match fetch_and_store_data fetch now fs with
    | .ok fs' => (.redirectTo "display_data", fs')
    | .error e => (.errText ("An error occurred during update: " ++ errStr e) 500, fs)

/-- Route `/fetch_initial_data` (main.py:66-78): identical to `/update` up to
the error message. -/
def fetch_initial_data (key : Option String) (fetch : String → Except Unit JVal)
    (now : DateTime) (fs : FS) : Response × FS :=
  if !check_api_key key then (.errText "Error: OURA_API_KEY is not set" 500, fs)
  else
    match fetch_and_store_data fetch now fs with
    | .ok fs' => (.redirectTo "display_data", fs')
    | .error e =>
      (.errText ("An error occurred while fetching initial data: " ++ errStr e) 500, fs)

/-- The record rows `pd.DataFrame(data['data'])` is built from
(main.py:96). The store's data model binds `"data"` to a list of records;
any other shape is outside the store invariant and modelled as raising. -/
def dfRecords : JVal → Option (List JVal)
  | .arr xs => some xs
  | _ => none

/-- The sheet-building loop of `download_archive` (main.py:95-97): one sheet
per metric type, named after the type and holding the rows of its bucket's
`"data"` sequence; a bucket without such a sequence raises. -/
def buildSheets : JDict → Option (List (String × List JVal))
  | [] => some []
  | (k, b) :: rest =>
    match getItem b "data" with
    | some dv =>
      match dfRecords dv with
      | some recs =>
        match buildSheets rest with
        | some sheets => some ((k, recs) :: sheets)
        | none => none
      | none => none
    | none => none

/-- Route `/download_archive` (main.py:80-107): missing credential fails fast
with a 500; a falsy store is a 404; otherwise each metric type's bucket is
turned into one spreadsheet sheet; any exception (load error, non-dict
store, malformed bucket) becomes a 500. -/
def download_archive (key : Option String) (fs : FS) : Response :=
  if !check_api_key key then .errText "Error: OURA_API_KEY is not set" 500
  else
    match load_data fs with
    | .error e => .errText ("An error occurred during archive download: " ++ errStr e) 500
    | .ok v =>
      if !pyTruthy v then .errText "No data available for download" 404
      else
        match v with
        | .obj entries =>
          match buildSheets entries with
          | some sheets => .xlsx sheets
          | none =>
            .errText ("An error occurred during archive download: " ++ errStr .mergeError) 500
        | _ =>
          .errText ("An error occurred during archive download: " ++ errStr .mergeError) 500

/-- The well-formedness a shared metric type's pair of buckets needs for the
merge loop body to complete: the existing bucket is a dict with `"data"`
bound to a list, and the incoming bucket's `"data"` subscript yields an
iterable value. -/
def sharedBucketsOK (b v : JVal) : Prop :=
  (∃ bf xs, b = JVal.obj bf ∧ dictLookup bf "data" = some (.arr xs)) ∧
  (∃ dv es, getItem v "data" = some dv ∧ pyIterElems dv = some es)

/-- The `"data"` record sequence of metric type `k` in a store dict: present
exactly when `k`'s bucket is a dict binding `"data"` to a list. -/
def dataSeq (d : JDict) (k : String) : Option (List JVal) :=
  match dictLookup d k with
  | some (.obj bf) =>
    match dictLookup bf "data" with
    | some (.arr xs) => some xs
    | _ => none
  | _ => none

/-- The sheet list of a well-formed store: one sheet per metric type, in
store order, holding that type's record rows. -/
def sheetsOf (entries : JDict) : List (String × List JVal) :=
  entries.map (fun p => (p.1,
    match getItem p.2 "data" with
    | some (.arr xs) => xs
    | _ => []))

/-! ### Association-list lemmas -/

theorem dictLookup_append_of_none {d₁ : JDict} {k : String} (d₂ : JDict)
    (h : dictLookup d₁ k = none) :
    dictLookup (d₁ ++ d₂) k = dictLookup d₂ k := by
  induction d₁ with
  | nil => rfl
  | cons kv rest ih =>
    obtain ⟨k', v⟩ := kv
    by_cases hk : k' = k
    · simp [dictLookup, hk] at h
    · simp only [dictLookup, hk, if_neg hk, List.cons_append] at h ⊢
      exact ih h

theorem dictLookup_append_of_some {d₁ : JDict} {k : String} {v : JVal} (d₂ : JDict)
    (h : dictLookup d₁ k = some v) :
    dictLookup (d₁ ++ d₂) k = some v := by
  induction d₁ with
  | nil => simp [dictLookup] at h
  | cons kv rest ih =>
    obtain ⟨k', v'⟩ := kv
    by_cases hk : k' = k
    · simp only [dictLookup, if_pos hk, List.cons_append] at h ⊢
      exact h
    · simp only [dictLookup, if_neg hk, List.cons_append] at h ⊢
      exact ih h

theorem dictLookup_singleton_self (k : String) (v : JVal) :
    dictLookup [(k, v)] k = some v := by
  simp [dictLookup]

theorem dictLookup_dictReplace_self {d : JDict} {k : String} {w : JVal} (v : JVal)
    (h : dictLookup d k = some w) :
    dictLookup (dictReplace d k v) k = some v := by
  induction d with
  | nil => simp [dictLookup] at h
  | cons kv rest ih =>
    obtain ⟨k', v'⟩ := kv
    by_cases hk : k' = k
    · simp [dictReplace, dictLookup, hk]
    · simp only [dictReplace, if_neg hk, dictLookup] at h ⊢
      exact ih h

theorem dictLookup_dictReplace_ne {k k' : String} (d : JDict) (v : JVal)
    (h : k' ≠ k) :
    dictLookup (dictReplace d k v) k' = dictLookup d k' := by
  induction d with
  | nil => rfl
  | cons kv rest ih =>
    obtain ⟨k₀, v₀⟩ := kv
    by_cases hk : k₀ = k
    · subst hk
      simp only [dictReplace, if_pos rfl, dictLookup]
      rw [if_neg (fun hh => h hh.symm), if_neg (fun hh => h hh.symm)]
    · simp only [dictReplace, if_neg hk, dictLookup]
      by_cases hk' : k₀ = k'
      · rw [if_pos hk', if_pos hk']
      · rw [if_neg hk', if_neg hk']
        exact ih

theorem dictLookup_append_single_ne {k k₁ : String} (d : JDict) (v₁ : JVal)
    (h : k ≠ k₁) :
    dictLookup (d ++ [(k₁, v₁)]) k = dictLookup d k := by
  cases hd : dictLookup d k with
  | none =>
    rw [dictLookup_append_of_none _ hd]
    simp only [dictLookup, if_neg (fun hh : k₁ = k => h hh.symm), hd]
  | some v => exact dictLookup_append_of_some _ hd

/-! ### Inversion and step lemmas for the merge loop -/

theorem mergeStep_not_mem {d : JDict} {k : String} (v : JVal)
    (h : dictLookup d k = none) :
    mergeStep (.obj d) (k, v) = some (.obj (d ++ [(k, v)])) := by
  simp [mergeStep, h]

theorem mergeStep_shared {d bf : JDict} {k : String} {v dv : JVal} {xs es : List JVal}
    (hb : dictLookup d k = some (.obj bf))
    (hdata : dictLookup bf "data" = some (.arr xs))
    (hdv : getItem v "data" = some dv)
    (hes : pyIterElems dv = some es) :
    mergeStep (.obj d) (k, v)
      = some (.obj (dictReplace d k (.obj (dictReplace bf "data" (.arr (xs ++ es)))))) := by
  simp [mergeStep, hb, hdata, hdv, hes]

theorem mergeStep_inv {d : JDict} {k₁ : String} {v₁ : JVal} {r : JVal}
    (h : mergeStep (.obj d) (k₁, v₁) = some r) :
    (dictLookup d k₁ = none ∧ r = .obj (d ++ [(k₁, v₁)])) ∨
    (∃ bf xs dv es, dictLookup d k₁ = some (.obj bf) ∧
      dictLookup bf "data" = some (.arr xs) ∧
      getItem v₁ "data" = some dv ∧ pyIterElems dv = some es ∧
      r = .obj (dictReplace d k₁ (.obj (dictReplace bf "data" (.arr (xs ++ es)))))) := by
  simp only [mergeStep] at h
  repeat' split at h
  all_goals
    first
      | exact Option.noConfusion h
      | exact Or.inl ⟨by assumption, (Option.some.inj h).symm⟩
      | exact Or.inr ⟨_, _, _, _, by assumption, by assumption, by assumption,
          by assumption, (Option.some.inj h).symm⟩

theorem mergeStep_obj {d : JDict} {kv : String × JVal} {r : JVal}
    (h : mergeStep (.obj d) kv = some r) : ∃ d', r = .obj d' := by
  obtain ⟨k₁, v₁⟩ := kv
  rcases mergeStep_inv h with ⟨_, heq⟩ | ⟨bf, xs, dv, es, _, _, _, _, heq⟩
  · exact ⟨_, heq⟩
  · exact ⟨_, heq⟩

theorem mergeStep_lookup_ne {d d' : JDict} {k₁ k : String} {v₁ : JVal}
    (h : mergeStep (.obj d) (k₁, v₁) = some (.obj d')) (hk : k ≠ k₁) :
    dictLookup d' k = dictLookup d k := by
  rcases mergeStep_inv h with ⟨_, heq⟩ | ⟨bf, xs, dv, es, _, _, _, _, heq⟩
  · cases JVal.obj.inj heq
    exact dictLookup_append_single_ne d v₁ hk
  · cases JVal.obj.inj heq
    exact dictLookup_dictReplace_ne d _ hk

/-! ### Merge-loop lemmas -/

theorem update_data_merge_obj {incoming : JDict} {d : JDict} {r : JVal}
    (h : update_data_merge (.obj d) incoming = some r) : ∃ d', r = .obj d' := by
  induction incoming generalizing d with
  | nil => exact ⟨d, (Option.some.inj h).symm⟩
  | cons kv rest ih =>
    simp only [update_data_merge] at h
    cases hstep : mergeStep (.obj d) kv with
    | none => rw [hstep] at h; exact Option.noConfusion h
    | some next =>
      rw [hstep] at h
      obtain ⟨d₁, rfl⟩ := mergeStep_obj hstep
      exact ih h

theorem merge_lookup_of_not_mem {incoming : JDict} {d d' : JDict} {k : String}
    (h : update_data_merge (.obj d) incoming = some (.obj d'))
    (hk : ∀ p ∈ incoming, p.1 ≠ k) :
    dictLookup d' k = dictLookup d k := by
  induction incoming generalizing d with
  | nil => rw [JVal.obj.inj (Option.some.inj h)]
  | cons kv rest ih =>
    obtain ⟨k₁, v₁⟩ := kv
    simp only [update_data_merge] at h
    cases hstep : mergeStep (.obj d) (k₁, v₁) with
    | none => rw [hstep] at h; exact Option.noConfusion h
    | some next =>
      rw [hstep] at h
      obtain ⟨d₁, rfl⟩ := mergeStep_obj hstep
      have h1 : dictLookup d₁ k = dictLookup d k :=
        mergeStep_lookup_ne hstep (fun hh => hk (k₁, v₁) (List.mem_cons_self _ _) hh.symm)
      rw [ih h (fun p hp => hk p (List.mem_cons_of_mem _ hp)), h1]

theorem merge_lookup_insert {incoming : JDict} {d d' : JDict} {k : String} {v : JVal}
    (hnd : (incoming.map Prod.fst).Nodup)
    (h : update_data_merge (.obj d) incoming = some (.obj d'))
    (hin : dictLookup incoming k = some v)
    (habs : dictLookup d k = none) :
    dictLookup d' k = some v := by
  induction incoming generalizing d with
  | nil => exact Option.noConfusion hin
  | cons kv rest ih =>
    obtain ⟨k₁, v₁⟩ := kv
    simp only [update_data_merge] at h
    by_cases hk : k₁ = k
    · subst hk
      have hv : v₁ = v := by
        simpa [dictLookup] using hin
      subst hv
      rw [mergeStep_not_mem v₁ habs] at h
      have hrest : ∀ p ∈ rest, p.1 ≠ k₁ := by
        intro p hp heq
        have : k₁ ∉ rest.map Prod.fst := by
          simpa using (List.nodup_cons.mp hnd).1
        exact this (heq ▸ List.mem_map_of_mem Prod.fst hp)
      rw [merge_lookup_of_not_mem h hrest,
        dictLookup_append_of_none _ habs, dictLookup_singleton_self]
    · have hin' : dictLookup rest k = some v := by
        simpa [dictLookup, hk] using hin
      cases hstep : mergeStep (.obj d) (k₁, v₁) with
      | none => rw [hstep] at h; exact Option.noConfusion h
      | some next =>
        rw [hstep] at h
        obtain ⟨d₁, rfl⟩ := mergeStep_obj hstep
        have habs' : dictLookup d₁ k = none := by
          rw [mergeStep_lookup_ne hstep (fun hh => hk hh.symm)]
          exact habs
        exact ih (List.nodup_cons.mp hnd).2 h hin' habs'

theorem merge_lookup_extend {incoming : JDict} {d d' bf : JDict} {k : String}
    {v dv : JVal} {xs es : List JVal}
    (hnd : (incoming.map Prod.fst).Nodup)
    (h : update_data_merge (.obj d) incoming = some (.obj d'))
    (hin : dictLookup incoming k = some v)
    (hex : dictLookup d k = some (.obj bf))
    (hdata : dictLookup bf "data" = some (.arr xs))
    (hdv : getItem v "data" = some dv)
    (hes : pyIterElems dv = some es) :
    dictLookup d' k = some (.obj (dictReplace bf "data" (.arr (xs ++ es)))) := by
  induction incoming generalizing d with
  | nil => exact Option.noConfusion hin
  | cons kv rest ih =>
    obtain ⟨k₁, v₁⟩ := kv
    simp only [update_data_merge] at h
    by_cases hk : k₁ = k
    · subst hk
      have hv : v₁ = v := by
        simpa [dictLookup] using hin
      subst hv
      rw [mergeStep_shared hex hdata hdv hes] at h
      have hrest : ∀ p ∈ rest, p.1 ≠ k₁ := by
        intro p hp heq
        have : k₁ ∉ rest.map Prod.fst := by
          simpa using (List.nodup_cons.mp hnd).1
        exact this (heq ▸ List.mem_map_of_mem Prod.fst hp)
      rw [merge_lookup_of_not_mem h hrest]
      exact dictLookup_dictReplace_self _ hex
    · have hin' : dictLookup rest k = some v := by
        simpa [dictLookup, hk] using hin
      cases hstep : mergeStep (.obj d) (k₁, v₁) with
      | none => rw [hstep] at h; exact Option.noConfusion h
      | some next =>
        rw [hstep] at h
        obtain ⟨d₁, rfl⟩ := mergeStep_obj hstep
        have hex' : dictLookup d₁ k = some (.obj bf) := by
          rw [mergeStep_lookup_ne hstep (fun hh => hk hh.symm)]
          exact hex
        exact ih (List.nodup_cons.mp hnd).2 h hin' hex'

theorem merge_total {incoming : JDict} {d : JDict}
    (hnd : (incoming.map Prod.fst).Nodup)
    (hpre : ∀ p ∈ incoming, ∀ b, dictLookup d p.1 = some b → sharedBucketsOK b p.2) :
    ∃ d', update_data_merge (.obj d) incoming = some (.obj d') := by
  induction incoming generalizing d with
  | nil => exact ⟨d, rfl⟩
  | cons kv rest ih =>
    obtain ⟨k₁, v₁⟩ := kv
    have hk₁ : k₁ ∉ rest.map Prod.fst := by
      simpa using (List.nodup_cons.mp hnd).1
    cases hex : dictLookup d k₁ with
    | none =>
      have hpre' : ∀ p ∈ rest, ∀ b,
          dictLookup (d ++ [(k₁, v₁)]) p.1 = some b → sharedBucketsOK b p.2 := by
        intro p hp b hb
        have hne : p.1 ≠ k₁ := fun hh => hk₁ (hh ▸ List.mem_map_of_mem Prod.fst hp)
        rw [dictLookup_append_single_ne _ _ hne] at hb
        exact hpre p (List.mem_cons_of_mem _ hp) b hb
      obtain ⟨d', hd'⟩ := ih (List.nodup_cons.mp hnd).2 hpre'
      refine ⟨d', ?_⟩
      simp only [update_data_merge, mergeStep_not_mem v₁ hex]
      exact hd'
    | some b =>
      obtain ⟨⟨bf, xs, rfl, hdata⟩, dv, es, hdv, hes⟩ :=
        hpre (k₁, v₁) (List.mem_cons_self _ _) b hex
      have hpre' : ∀ p ∈ rest, ∀ b',
          dictLookup (dictReplace d k₁
            (.obj (dictReplace bf "data" (.arr (xs ++ es))))) p.1 = some b' →
          sharedBucketsOK b' p.2 := by
        intro p hp b' hb
        have hne : p.1 ≠ k₁ := fun hh => hk₁ (hh ▸ List.mem_map_of_mem Prod.fst hp)
        rw [dictLookup_dictReplace_ne _ _ hne] at hb
        exact hpre p (List.mem_cons_of_mem _ hp) b' hb
      obtain ⟨d', hd'⟩ := ih (List.nodup_cons.mp hnd).2 hpre'
      refine ⟨d', ?_⟩
      simp only [update_data_merge, mergeStep_shared hex hdata hdv hes]
      exact hd'

theorem merge_shared_ok {incoming : JDict} {d : JDict} {r : JVal}
    (hnd : (incoming.map Prod.fst).Nodup)
    (h : update_data_merge (.obj d) incoming = some r) :
    ∀ p ∈ incoming, ∀ b, dictLookup d p.1 = some b → sharedBucketsOK b p.2 := by
  induction incoming generalizing d with
  | nil => intro p hp; exact absurd hp (List.not_mem_nil p)
  | cons kv rest ih =>
    obtain ⟨k₁, v₁⟩ := kv
    simp only [update_data_merge] at h
    cases hstep : mergeStep (.obj d) (k₁, v₁) with
    | none => rw [hstep] at h; exact Option.noConfusion h
    | some next =>
      rw [hstep] at h
      obtain ⟨d₁, rfl⟩ := mergeStep_obj hstep
      intro p hp b hb
      rcases List.mem_cons.mp hp with rfl | hp'
      · rcases mergeStep_inv hstep with ⟨hnone, _⟩ | ⟨bf, xs, dv, es, hb', hdata, hdv, hes, _⟩
        · rw [hnone] at hb; exact Option.noConfusion hb
        · rw [hb'] at hb
          exact ⟨⟨bf, xs, (Option.some.inj hb).symm, hdata⟩, dv, es, hdv, hes⟩
      · have hne : p.1 ≠ k₁ := by
          intro hh
          have : k₁ ∉ rest.map Prod.fst := by
            simpa using (List.nodup_cons.mp hnd).1
          exact this (hh ▸ List.mem_map_of_mem Prod.fst hp')
        have hb₁ : dictLookup d₁ p.1 = some b := by
          rw [mergeStep_lookup_ne hstep hne]
          exact hb
        exact ih (List.nodup_cons.mp hnd).2 h p hp' b hb₁

theorem dataSeq_of_buckets {d bf : JDict} {k : String} {xs : List JVal}
    (hb : dictLookup d k = some (.obj bf))
    (hdata : dictLookup bf "data" = some (.arr xs)) :
    dataSeq d k = some xs := by
  simp [dataSeq, hb, hdata]

theorem dataSeq_lookup_inv {d : JDict} {k : String} {xs : List JVal}
    (h : dataSeq d k = some xs) :
    ∃ bf, dictLookup d k = some (.obj bf) ∧ dictLookup bf "data" = some (.arr xs) := by
  simp only [dataSeq] at h
  repeat' split at h
  all_goals
    first
      | exact Option.noConfusion h
      | (cases Option.some.inj h; exact ⟨_, by assumption, by assumption⟩)

theorem dataSeq_congr {d d' : JDict} {k : String}
    (h : dictLookup d' k = dictLookup d k) : dataSeq d' k = dataSeq d k := by
  simp only [dataSeq, h]

theorem merge_append_only {incoming : JDict} {d d' : JDict} {k : String} {xs : List JVal}
    (h : update_data_merge (.obj d) incoming = some (.obj d'))
    (hxs : dataSeq d k = some xs) :
    ∃ ys, dataSeq d' k = some (xs ++ ys) := by
  induction incoming generalizing d xs with
  | nil =>
    rw [JVal.obj.inj (Option.some.inj h)] at hxs
    exact ⟨[], by rw [List.append_nil]; exact hxs⟩
  | cons kv rest ih =>
    obtain ⟨k₁, v₁⟩ := kv
    simp only [update_data_merge] at h
    cases hstep : mergeStep (.obj d) (k₁, v₁) with
    | none => rw [hstep] at h; exact Option.noConfusion h
    | some next =>
      rw [hstep] at h
      obtain ⟨d₁, rfl⟩ := mergeStep_obj hstep
      by_cases hk : k = k₁
      · subst hk
        obtain ⟨bf', hb', hdata'⟩ := dataSeq_lookup_inv hxs
        rcases mergeStep_inv hstep with ⟨hnone, heq⟩ | ⟨bf, zs, dv, es, hb, hdata, hdv, hes, heq⟩
        · rw [hnone] at hb'
          exact Option.noConfusion hb'
        · rw [hb] at hb'
          cases JVal.obj.inj (Option.some.inj hb')
          rw [hdata] at hdata'
          cases JVal.arr.inj (Option.some.inj hdata')
          cases JVal.obj.inj heq
          obtain ⟨ys, hys⟩ := ih h
            (dataSeq_of_buckets (dictLookup_dictReplace_self _ hb)
              (dictLookup_dictReplace_self _ hdata))
          exact ⟨es ++ ys, by rw [hys, List.append_assoc]⟩
      · have hseq : dataSeq d₁ k = some xs := by
          rw [dataSeq_congr (mergeStep_lookup_ne hstep hk)]
          exact hxs
        exact ih h hseq

theorem dictLookup_none_not_mem {d : JDict} {k : String}
    (h : dictLookup d k = none) : ∀ p ∈ d, p.1 ≠ k := by
  induction d with
  | nil => intro p hp; exact absurd hp (List.not_mem_nil p)
  | cons kv rest ih =>
    obtain ⟨k', v⟩ := kv
    intro p hp
    by_cases hk : k' = k
    · simp [dictLookup, hk] at h
    · rcases List.mem_cons.mp hp with rfl | hp'
      · exact hk
      · simp only [dictLookup, if_neg hk] at h
        exact ih h p hp'

/-! ### Claim theorems -/

/-- C4: loading the persisted store returns an empty mapping (and does not
raise) when the store file is absent, raises a JSON decode error when the
file exists but does not contain valid JSON, returns the parsed document
otherwise, and the decode error on an invalid file is the only failure mode
of this interface. -/
theorem loadStore_behavior (fs : FS) :
    (fs.dataFile = none → load_data fs = .ok (.obj [])) ∧
    (∀ v, fs.dataFile = some (.json v) → load_data fs = .ok v) ∧
    (∀ raw, fs.dataFile = some (.invalid raw) → load_data fs = .error .jsonDecodeError) ∧
    (∀ e, load_data fs = .error e →
      e = .jsonDecodeError ∧ ∃ raw, fs.dataFile = some (.invalid raw)) := by
  obtain ⟨df, lu⟩ := fs
  cases df with
  | none => refine ⟨fun _ => rfl, ?_, ?_, ?_⟩ <;> intro x h <;> cases h
  | some fd =>
    cases fd with
    | json v =>
      refine ⟨fun h => Option.noConfusion h, ?_, ?_, ?_⟩
      · intro w h
        cases FileData.json.inj (Option.some.inj h)
        rfl
      · intro raw h
        exact FileData.noConfusion (Option.some.inj h)
      · intro e h
        exact Except.noConfusion h
    | invalid raw =>
      refine ⟨fun h => Option.noConfusion h, ?_, ?_, ?_⟩
      · intro w h
        exact FileData.noConfusion (Option.some.inj h)
      · intro raw' h
        rfl
      · intro e h
        exact ⟨(Except.error.inj h).symm, raw, rfl⟩

theorem loadStore_behavior_witness :
    load_data ⟨none, none⟩ = .ok (.obj []) ∧
    load_data ⟨some (.json (.num 7)), none⟩ = .ok (.num 7) ∧
    load_data ⟨some (.invalid "not json"), none⟩ = .error .jsonDecodeError :=
  ⟨(loadStore_behavior ⟨none, none⟩).1 rfl,
   (loadStore_behavior ⟨some (.json (.num 7)), none⟩).2.1 (.num 7) rfl,
   (loadStore_behavior ⟨some (.invalid "not json"), none⟩).2.2.1 "not json" rfl⟩

/-- C6: each of the four web routes, when the API credential is missing from
the environment (`OURA_API_KEY` unset, so `os.environ.get` returned `None`),
returns the 500 error response with its message; the response does not
depend on the store, the fetcher or the clock, and the routes that can write
leave the file system unchanged — the check runs before any store access or
upstream call. -/
theorem credential_fail_fast (fs : FS) (fetch : String → Except Unit JVal)
    (now : DateTime) :
    display_data none fs = .errText "Error: OURA_API_KEY is not set" 500 ∧
    manual_update none fetch now fs = (.errText "Error: OURA_API_KEY is not set" 500, fs) ∧
    fetch_initial_data none fetch now fs
      = (.errText "Error: OURA_API_KEY is not set" 500, fs) ∧
    download_archive none fs = .errText "Error: OURA_API_KEY is not set" 500 :=
  ⟨rfl, rfl, rfl, rfl⟩

/-- C9: merging with an empty incoming mapping is the identity on the loaded
document, and a refresh in which every fetch fails still rewrites the store
file with the unchanged loaded content and still overwrites the last-updated
file with the formatted current time. -/
theorem refresh_all_failed (fetch : String → Except Unit JVal) (now : DateTime)
    (fs : FS) (v : JVal)
    (hfail : ∀ t ∈ data_types, fetch t = .error ())
    (hload : load_data fs = .ok v) :
    (∀ w : JVal, update_data_merge w [] = some w) ∧
    fetch_and_store_data fetch now fs =
      .ok { dataFile := some (.json v), lastUpdated := some (String.mk (formatChars now)) } := by
  refine ⟨fun w => rfl, ?_⟩
  have h1 : fetch "daily_activity" = .error () := hfail _ (by simp [data_types])
  have h2 : fetch "daily_readiness" = .error () := hfail _ (by simp [data_types])
  have h3 : fetch "daily_sleep" = .error () := hfail _ (by simp [data_types])
  have hloop : fetchLoop fetch data_types [] = [] := by
    simp [fetchLoop, data_types, h1, h2, h3]
  rw [fetch_and_store_data, hloop, update_data, hload]
  rfl

theorem refresh_all_failed_witness :
    fetch_and_store_data (fun _ => .error ()) ⟨2026, 10, 12, 1, 2, 3⟩
        ⟨some (.json (.obj [("A", .obj [("data", .arr [.num 5])])])), none⟩ =
      .ok { dataFile := some (.json (.obj [("A", .obj [("data", .arr [.num 5])])])),
            lastUpdated := some (String.mk (formatChars ⟨2026, 10, 12, 1, 2, 3⟩)) } :=
  (refresh_all_failed (fun _ => .error ()) ⟨2026, 10, 12, 1, 2, 3⟩
    ⟨some (.json (.obj [("A", .obj [("data", .arr [.num 5])])])), none⟩
    (.obj [("A", .obj [("data", .arr [.num 5])])])
    (fun _ _ => rfl) rfl).2

/-- C10-counterexample: the claimed precondition is not necessary. On a
shared metric type whose incoming bucket binds `"data"` to the string
`"ab"` — not a list — the merge completes: `list.extend` accepts any
iterable, so the existing `data` list is extended with the string's
characters. -/
theorem merge_precondition_counterexample :
    update_data_merge (.obj [("A", .obj [("data", .arr [])])])
      [("A", .obj [("data", .str "ab")])]
      = some (.obj [("A", .obj [("data", .arr [.str "a", .str "b"])])]) := rfl

/-- C10-amended: the merge step performs no validation of bucket shape; for
nodup incoming keys it completes exactly when every metric type present in
both sides has an existing bucket that is a mapping binding `"data"` to a
list and an incoming bucket whose `"data"` subscript yields an iterable
value (list, string or mapping) — a list is required on the existing side
but merely iterability on the incoming side. -/
theorem merge_precondition_amended (existing incoming : JDict)
    (hnd : (incoming.map Prod.fst).Nodup) :
    ((∀ p ∈ incoming, ∀ b, dictLookup existing p.1 = some b → sharedBucketsOK b p.2) →
      ∃ res, update_data_merge (.obj existing) incoming = some (.obj res)) ∧
    (∀ r, update_data_merge (.obj existing) incoming = some r →
      ∀ p ∈ incoming, ∀ b, dictLookup existing p.1 = some b → sharedBucketsOK b p.2) :=
  ⟨fun hpre => merge_total hnd hpre, fun _ h => merge_shared_ok hnd h⟩

theorem merge_precondition_amended_witness :
    ∃ res, update_data_merge (.obj [("A", .obj [("data", .arr [.num 1])])])
      [("A", .obj [("data", .arr [.num 2])])] = some (.obj res) :=
  (merge_precondition_amended [("A", .obj [("data", .arr [.num 1])])]
    [("A", .obj [("data", .arr [.num 2])])] (by simp)).1
    (fun p hp b hb => by
      cases List.mem_singleton.mp hp
      exact ⟨⟨_, _, (Option.some.inj hb).symm, rfl⟩, _, _, rfl, rfl⟩)

/-- C1: merge semantics. For any existing store and any incoming mapping
(nodup keys, as any Python dict has) whose shared metric types carry
well-formed buckets (`"data"` bound to a list on both sides), the merge loop
completes, and in the result: a type absent from the existing store gets the
incoming bucket verbatim; a shared type gets the existing bucket with the
incoming `data` sequence appended after the existing one and every other
field unchanged; a type not mentioned in the incoming mapping keeps its
existing bucket. -/
theorem merge_semantics (existing incoming : JDict)
    (hnd : (incoming.map Prod.fst).Nodup)
    (hwf : ∀ p ∈ incoming, ∀ b, dictLookup existing p.1 = some b →
      ∃ bf xs, b = JVal.obj bf ∧ dictLookup bf "data" = some (.arr xs) ∧
        ∃ ys, getItem p.2 "data" = some (.arr ys)) :
    ∃ res, update_data_merge (.obj existing) incoming = some (.obj res) ∧
      (∀ k, dictLookup incoming k = none → dictLookup res k = dictLookup existing k) ∧
      (∀ k v, dictLookup incoming k = some v → dictLookup existing k = none →
        dictLookup res k = some v) ∧
      (∀ k v bf xs ys, dictLookup incoming k = some v →
        dictLookup existing k = some (.obj bf) →
        dictLookup bf "data" = some (.arr xs) →
        getItem v "data" = some (.arr ys) →
        dictLookup res k = some (.obj (dictReplace bf "data" (.arr (xs ++ ys)))) ∧
        ∀ k', k' ≠ "data" →
          dictLookup (dictReplace bf "data" (.arr (xs ++ ys))) k' = dictLookup bf k') := by
  have hpre : ∀ p ∈ incoming, ∀ b, dictLookup existing p.1 = some b →
      sharedBucketsOK b p.2 := by
    intro p hp b hb
    obtain ⟨bf, xs, rfl, hdata, ys, hys⟩ := hwf p hp b hb
    exact ⟨⟨bf, xs, rfl, hdata⟩, .arr ys, ys, hys, rfl⟩
  obtain ⟨res, hres⟩ := merge_total hnd hpre
  refine ⟨res, hres, ?_, ?_, ?_⟩
  · intro k hk
    exact merge_lookup_of_not_mem hres (dictLookup_none_not_mem hk)
  · intro k v hin habs
    exact merge_lookup_insert hnd hres hin habs
  · intro k v bf xs ys hin hex hdata hdv
    refine ⟨merge_lookup_extend hnd hres hin hex hdata hdv rfl, ?_⟩
    intro k' hk'
    exact dictLookup_dictReplace_ne bf _ hk'

theorem merge_semantics_witness :
    ∃ res, update_data_merge
        (.obj [("A", .obj [("data", .arr [.num 1, .num 2]), ("meta", .str "m")])])
        [("A", .obj [("data", .arr [.num 3])]), ("B", .obj [("data", .arr [.num 4])])]
        = some (.obj res) ∧
      dictLookup res "B" = some (.obj [("data", .arr [.num 4])]) ∧
      dictLookup res "A"
        = some (.obj [("data", .arr [.num 1, .num 2, .num 3]), ("meta", .str "m")]) ∧
      dictLookup [("data", JVal.arr [.num 1, .num 2, .num 3]), ("meta", JVal.str "m")] "meta"
        = some (.str "m") := by
  obtain ⟨res, hres, hkeep, hins, hext⟩ := merge_semantics
    [("A", .obj [("data", .arr [.num 1, .num 2]), ("meta", .str "m")])]
    [("A", .obj [("data", .arr [.num 3])]), ("B", .obj [("data", .arr [.num 4])])]
    (by simp)
    (by
      intro p hp b hb
      rcases List.mem_cons.mp hp with rfl | hp'
      · exact ⟨_, _, (Option.some.inj hb).symm, rfl, [.num 3], rfl⟩
      · cases List.mem_singleton.mp hp'
        exact Option.noConfusion hb)
  obtain ⟨hA, hfields⟩ := hext "A" _ _ [.num 1, .num 2] [.num 3] rfl rfl rfl rfl
  exact ⟨res, hres, hins "B" _ rfl rfl, hA, hfields "meta" (by decide)⟩

/-- C2: append-only invariant. Whenever a refresh cycle succeeds starting
from a store file holding a mapping, every metric type that had a record
sequence in the prior store has, in the store written by the refresh, a
record sequence that extends the prior one on the right — nothing is
removed, reordered or deduplicated. -/
theorem refresh_append_only (fetch : String → Except Unit JVal) (now : DateTime)
    (fs fs' : FS) (entries : JDict)
    (hload : load_data fs = .ok (.obj entries))
    (hrun : fetch_and_store_data fetch now fs = .ok fs') :
    ∀ k xs, dataSeq entries k = some xs →
      ∃ entries' ys, fs'.dataFile = some (.json (.obj entries')) ∧
        dataSeq entries' k = some (xs ++ ys) := by
  intro k xs hxs
  simp only [fetch_and_store_data] at hrun
  cases hupd : update_data (fetchLoop fetch data_types []) fs with
  | error e => simp only [hupd] at hrun; exact Except.noConfusion hrun
  | ok fs₁ =>
    simp only [hupd] at hrun
    simp only [update_data, hload] at hupd
    cases hm : update_data_merge (.obj entries) (fetchLoop fetch data_types []) with
    | none => simp only [hm] at hupd; exact Except.noConfusion hupd
    | some r =>
      simp only [hm] at hupd
      obtain ⟨entries', rfl⟩ := update_data_merge_obj hm
      obtain ⟨ys, hys⟩ := merge_append_only hm hxs
      refine ⟨entries', ys, ?_, hys⟩
      rw [← Except.ok.inj hrun, ← Except.ok.inj hupd]
      rfl

/-- C3: refresh error tolerance and propagation. The fetch loop swallows any
per-type failure and continues to the remaining types, collecting exactly the
truthy successful payloads in order; the merge-and-persist step then runs on
whichever subset succeeded, so the whole refresh fails exactly when that
merge-and-persist step fails — never because of a fetch failure alone — and
on success the last-updated timestamp is written afterwards. -/
theorem refresh_error_tolerance :
    (∀ (fetch : String → Except Unit JVal) (ts : List String) (acc : JDict),
      fetchLoop fetch ts acc = acc ++ ts.filterMap (fun t =>
        match fetch t with
        | .ok v => if pyTruthy v then some (t, v) else none
        | .error _ => none)) ∧
    (∀ (fetch : String → Except Unit JVal) (now : DateTime) (fs : FS) (e : PyError),
      fetch_and_store_data fetch now fs = .error e ↔
        update_data (fetchLoop fetch data_types []) fs = .error e) ∧
    (∀ (fetch : String → Except Unit JVal) (now : DateTime) (fs fs₁ : FS),
      update_data (fetchLoop fetch data_types []) fs = .ok fs₁ →
        fetch_and_store_data fetch now fs = .ok (store_last_updated_time now fs₁) ∧
        (store_last_updated_time now fs₁).lastUpdated
          = some (String.mk (formatChars now))) := by
  refine ⟨?_, ?_, ?_⟩
  · intro fetch ts
    induction ts with
    | nil => intro acc; simp [fetchLoop]
    | cons t ts ih =>
      intro acc
      cases hf : fetch t with
      | ok v =>
        cases hv : pyTruthy v
        · simp [fetchLoop, hf, hv, ih]
        · simp [fetchLoop, hf, hv, ih]
      | error e => simp [fetchLoop, hf, ih]
  · intro fetch now fs e
    simp only [fetch_and_store_data]
    cases hupd : update_data (fetchLoop fetch data_types []) fs with
    | ok fs₁ => simp
    | error e' => simp
  · intro fetch now fs fs₁ hupd
    refine ⟨?_, rfl⟩
    simp only [fetch_and_store_data, hupd]

theorem refresh_error_tolerance_witness :
    fetch_and_store_data
        (fun t => if t = "daily_sleep" then .error () else .ok (.obj [("data", .arr [.num 9])]))
        ⟨2026, 1, 2, 3, 4, 5⟩ ⟨none, none⟩
      = .ok (store_last_updated_time ⟨2026, 1, 2, 3, 4, 5⟩
          (store_data (.obj
            [("daily_activity", .obj [("data", .arr [.num 9])]),
             ("daily_readiness", .obj [("data", .arr [.num 9])])]) ⟨none, none⟩)) :=
  (refresh_error_tolerance.2.2
    (fun t => if t = "daily_sleep" then .error () else .ok (.obj [("data", .arr [.num 9])]))
    ⟨2026, 1, 2, 3, 4, 5⟩ ⟨none, none⟩
    (store_data (.obj
      [("daily_activity", .obj [("data", .arr [.num 9])]),
       ("daily_readiness", .obj [("data", .arr [.num 9])])]) ⟨none, none⟩)
    rfl).1

theorem buildSheets_of_wf {entries : JDict}
    (h : ∀ p ∈ entries, ∃ xs, getItem p.2 "data" = some (.arr xs)) :
    buildSheets entries = some (sheetsOf entries) := by
  induction entries with
  | nil => rfl
  | cons kb rest ih =>
    obtain ⟨k, b⟩ := kb
    obtain ⟨xs, hxs⟩ := h (k, b) (List.mem_cons_self _ _)
    have hrest := ih (fun p hp => h p (List.mem_cons_of_mem _ hp))
    simp [buildSheets, hxs, dfRecords, hrest, sheetsOf]

/-- C7: archive export. With the credential present and the store file
loading as a mapping, the download route answers the 404 "no data" response
exactly when that mapping is empty; when it is non-empty and its buckets
bind `"data"` to lists (the store's data model), the route returns the
spreadsheet with one sheet per metric type, each holding that type's record
rows. -/
theorem download_archive_behavior (key : Option String) (fs : FS) (entries : JDict)
    (hkey : check_api_key key = true)
    (hload : load_data fs = .ok (.obj entries)) :
    ((download_archive key fs = .errText "No data available for download" 404) ↔
      entries = []) ∧
    ((∀ p ∈ entries, ∃ xs, getItem p.2 "data" = some (.arr xs)) → entries ≠ [] →
      download_archive key fs = .xlsx (sheetsOf entries)) := by
  have hda : download_archive key fs =
      if !pyTruthy (.obj entries) then .errText "No data available for download" 404
      else
        match buildSheets entries with
        | some sheets => .xlsx sheets
        | none =>
          .errText ("An error occurred during archive download: " ++ errStr .mergeError) 500 := by
    simp only [download_archive, hkey, hload, Bool.not_true, Bool.false_eq_true, if_false]
  constructor
  · rw [hda]
    cases entries with
    | nil => simp [pyTruthy]
    | cons kb rest =>
      simp only [pyTruthy, List.isEmpty_cons, Bool.not_false, Bool.not_true, if_false]
      constructor
      · intro h
        cases hb : buildSheets (kb :: rest) with
        | some sheets => rw [hb] at h; exact Response.noConfusion h
        | none =>
          rw [hb] at h
          exact absurd (Response.errText.inj h).2 (by decide)
      · intro h
        exact List.noConfusion h
  · intro hwf hne
    rw [hda, buildSheets_of_wf hwf]
    cases entries with
    | nil => exact absurd rfl hne
    | cons kb rest => simp [pyTruthy]

theorem download_archive_behavior_witness :
    (download_archive (some "k") ⟨some (.json (.obj [])), none⟩
      = .errText "No data available for download" 404) ∧
    download_archive (some "k")
        ⟨some (.json (.obj [("A", .obj [("data", .arr [.num 1])])])), none⟩
      = .xlsx [("A", [.num 1])] := by
  constructor
  · exact (download_archive_behavior (some "k") ⟨some (.json (.obj [])), none⟩ []
      rfl rfl).1.mpr rfl
  · have h := (download_archive_behavior (some "k")
      ⟨some (.json (.obj [("A", .obj [("data", .arr [.num 1])])])), none⟩
      [("A", .obj [("data", .arr [.num 1])])] rfl rfl).2
      (fun p hp => by
        cases List.mem_singleton.mp hp
        exact ⟨[.num 1], rfl⟩)
      (by simp)
    exact h

theorem digit_not_space (n : Nat) : isPySpace (digitChar n) = false := by
  unfold digitChar
  split <;> decide

theorem digitChar_digit (n : Nat) :
    48 ≤ (digitChar n).toNat ∧ (digitChar n).toNat ≤ 57 := by
  unfold digitChar
  split <;> decide

theorem pyStrip_formatChars (t : DateTime) :
    pyStrip (String.mk (formatChars t)) = String.mk (formatChars t) := by
  simp [pyStrip, formatChars, List.dropWhile, digit_not_space]

/-- C8: the last-updated sentinel. Loading the timestamp returns the literal
`"Never"` when the timestamp file is absent; after a store, loading returns
exactly the stored formatted current time; and the stored character sequence
is `YYYY-MM-DD HH:MM:SS`: 19 characters with separators `-`, `-`, space,
`:`, `:` at positions 4, 7, 10, 13, 16 and decimal digits everywhere else. -/
theorem lastUpdated_sentinel :
    (∀ fs : FS, fs.lastUpdated = none → load_last_updated_time fs = "Never") ∧
    (∀ (now : DateTime) (fs : FS),
      (store_last_updated_time now fs).lastUpdated = some (String.mk (formatChars now)) ∧
      load_last_updated_time (store_last_updated_time now fs)
        = String.mk (formatChars now)) ∧
    (∀ now : DateTime,
      (formatChars now).length = 19 ∧
      (formatChars now)[4]? = some '-' ∧ (formatChars now)[7]? = some '-' ∧
      (formatChars now)[10]? = some ' ' ∧ (formatChars now)[13]? = some ':' ∧
      (formatChars now)[16]? = some ':' ∧
      ∀ i ∈ ([0, 1, 2, 3, 5, 6, 8, 9, 11, 12, 14, 15, 17, 18] : List Nat),
        ∃ c, (formatChars now)[i]? = some c ∧ 48 ≤ c.toNat ∧ c.toNat ≤ 57) := by
  refine ⟨?_, ?_, ?_⟩
  · intro fs h
    simp [load_last_updated_time, h]
  · intro now fs
    exact ⟨rfl, pyStrip_formatChars now⟩
  · intro now
    refine ⟨rfl, rfl, rfl, rfl, rfl, rfl, ?_⟩
    intro i hi
    fin_cases hi <;> exact ⟨_, rfl, digitChar_digit _⟩

theorem lastUpdated_sentinel_witness :
    load_last_updated_time ⟨none, none⟩ = "Never" ∧
    load_last_updated_time (store_last_updated_time ⟨2026, 10, 12, 7, 8, 9⟩ ⟨none, none⟩)
      = String.mk (formatChars ⟨2026, 10, 12, 7, 8, 9⟩) ∧
    String.mk (formatChars ⟨2026, 10, 12, 7, 8, 9⟩) = "2026-10-12 07:08:09" :=
  ⟨lastUpdated_sentinel.1 ⟨none, none⟩ rfl,
   (lastUpdated_sentinel.2.1 ⟨2026, 10, 12, 7, 8, 9⟩ ⟨none, none⟩).2,
   by decide⟩

theorem refresh_append_only_witness :
    ∃ entries' ys,
      (FS.mk
        (some (.json (.obj
          [("daily_sleep", .obj [("data", .arr [.num 1, .num 2])]),
           ("daily_activity", .obj [("data", .arr [.num 2])]),
           ("daily_readiness", .obj [("data", .arr [.num 2])])])))
        (some (String.mk (formatChars ⟨2026, 1, 1, 0, 0, 0⟩)))).dataFile
        = some (.json (.obj entries')) ∧
      dataSeq entries' "daily_sleep" = some ([JVal.num 1] ++ ys) :=
  refresh_append_only (fun _ => .ok (.obj [("data", .arr [.num 2])]))
    ⟨2026, 1, 1, 0, 0, 0⟩
    ⟨some (.json (.obj [("daily_sleep", .obj [("data", .arr [.num 1])])])), none⟩
    (FS.mk
      (some (.json (.obj
        [("daily_sleep", .obj [("data", .arr [.num 1, .num 2])]),
         ("daily_activity", .obj [("data", .arr [.num 2])]),
         ("daily_readiness", .obj [("data", .arr [.num 2])])])))
      (some (String.mk (formatChars ⟨2026, 1, 1, 0, 0, 0⟩))))
    [("daily_sleep", .obj [("data", .arr [.num 1])])]
    rfl rfl "daily_sleep" [.num 1] rfl
